import Mathlib

/-!
# dronebot: joystick sampling and telemetry streaming (`C++Segment/main.cpp`)

A shallow embedding of the core of `main.cpp`:

* the axis normaliser (`normalizeAxis`, `safe_norm`, `throttle_mapped`) and the
  fixed axis mapping,
* the device matcher (`toLower`, `find_radiomaster_index`),
* the device lifecycle (`try_open`, the hot-plug event handlers),
* the frame builder and the send path of the publish loop.

Conventions of the embedding

* `std::string` is a `List Char`; `::tolower` in the "C" locale is `Char.toLower`
  (both change the ASCII letters `A`..`Z` only).
* `float` / `double` arithmetic is read as exact arithmetic on `ℚ`.
* `Sint16`, `int`, `ssize_t` values are `Int`; the ranges are hypotheses of the
  theorems that need them.
* The POSIX branch of every `#ifdef _WIN32` is the one embedded: the socket is an
  `int`, valid iff `g_sock >= 0`, and `send` is called with flags `0` while the
  disposition of `SIGPIPE` is the default one, so a `send` on a connection the
  peer has closed ends the process (`SendOutcome.sigpipe`).
* Calls into SDL and the socket layer are answered by data carried in the inputs
  (`Env`, `Event`, `Tick`), and the calls the program makes are returned as a list
  of `Effect`s next to the new state.
-/

namespace Dronebot

/-! ## Axis normaliser -/

/-- The function `normalizeAxis` (main.cpp:31-35): non-negative samples are divided by 32767,
negative ones by 32768. -/
def normalizeAxis (v : Int) : ℚ :=
  if v ≥ 0 then (v : ℚ) / 32767
  else (v : ℚ) / 32768

/-- Axis mapping (main.cpp:225): left stick horizontal, yaw. -/
def left_x : Int := 3
/-- Axis mapping (main.cpp:226): left stick vertical, throttle. -/
def left_y : Int := 2
/-- Axis mapping (main.cpp:227): right stick horizontal, roll. -/
def right_x : Int := 0
/-- Axis mapping (main.cpp:228): right stick vertical, pitch. -/
def right_y : Int := 1

/-- The lambda `safe_norm` (main.cpp:289-292). `axis_values` is the sampled vector
and `axes` is its length (main.cpp:270-272); the element access is made only
inside the guard, where the index is in bounds. -/
def safe_norm (axis_values : List Int) (idx : Int) : ℚ :=
  if h : idx < 0 ∨ idx ≥ (axis_values.length : Int) then 0
  else normalizeAxis (axis_values.get ⟨idx.toNat, by omega⟩)

/-- The lambda `throttle_mapped` (main.cpp:293-299). -/
def throttle_mapped (axis_values : List Int) (idx : Int) : ℚ :=
  let n := safe_norm axis_values idx
  let m := (n + 1) / 2
  let m := if m < 0 then 0 else m
  let m := if m > 1 then 1 else m
  m

/-- The four control channels of one publish tick. -/
structure Channels where
  yaw : ℚ
  throttle : ℚ
  pitch : ℚ
  roll : ℚ
  deriving DecidableEq

/-- Channel assignment (main.cpp:301-304). -/
def channels (axis_values : List Int) : Channels :=
  { yaw := safe_norm axis_values left_x
    throttle := throttle_mapped axis_values left_y
    pitch := safe_norm axis_values right_y
    roll := safe_norm axis_values right_x }

/-- Rounding to the nearest integer, ties to even: the rounding `operator<<`
applies to the digits it drops. -/
def roundHalfEven (x : ℚ) : Int :=
  let f := ⌊x⌋
  let r := x - f
  if r < 1 / 2 then f
  else if 1 / 2 < r then f + 1
  else if f % 2 = 0 then f else f + 1

/-- The value shown by `std::fixed << std::setprecision(3)` (main.cpp:276), as a
number: the nearest multiple of 1/1000. -/
def round3 (x : ℚ) : ℚ := (roundHalfEven (x * 1000) : ℚ) / 1000

/-- Fixed-point text of a number with three decimals, as written by
`ss << std::fixed << std::setprecision(3)` (main.cpp:276, 320-326). -/
def fixed3 (x : ℚ) : List Char :=
  let n := (roundHalfEven (|x| * 1000)).toNat
  let frac := n % 1000
  (if x < 0 then ['-'] else [])
    ++ (Nat.repr (n / 1000)).toList
    ++ ['.', Nat.digitChar (frac / 100), Nat.digitChar (frac / 10 % 10), Nat.digitChar (frac % 10)]

/-! ## Device matcher -/

/-- The model of `std::string`. -/
abbrev Str := List Char

/-- The function `toLower` (main.cpp:25-29): `::tolower` applied to every character. -/
def toLower (s : Str) : Str :=
  s.map Char.toLower

/-- The default of the global `g_target_name` (main.cpp:38). -/
def default_target_name : Str := "radiomaster pocket joystick".toList

/-- The model of `std::string::find(needle)`: the position of the first occurrence of `needle`
in `hay`, `none` for `npos`. -/
def strFind (hay needle : Str) : Option Nat :=
  if needle.isPrefixOf hay then some 0
  else match hay with
    | [] => none
    | _ :: t => (strFind t needle).map (· + 1)

/-- The test of main.cpp:137 on one device name (`none` is the null pointer
`SDL_JoystickNameForIndex` may return). -/
def is_candidate (g_target_name : Str) (name : Option Str) : Bool :=
  let sname := match name with
    | some n => n
    | none => "(unknown)".toList
  let lower := toLower sname
  (strFind lower g_target_name).isSome
    || (strFind lower "radiomaster".toList).isSome
    || (strFind lower "edgetx".toList).isSome

/-- The loop of `find_radiomaster_index` (main.cpp:133-141) from index `i` on;
`names` are the names of the devices `i`, `i+1`, ... -/
def find_radiomaster_index_from (g_target_name : Str) : List (Option Str) → Int → Int
  | [], _ => -1
  | name :: rest, i =>
    if is_candidate g_target_name name then i
    else find_radiomaster_index_from g_target_name rest (i + 1)

/-- The function `find_radiomaster_index` (main.cpp:131-143); `names` is what
`SDL_JoystickNameForIndex` answers for the indices `0 .. SDL_NumJoysticks()-1`. -/
def find_radiomaster_index (g_target_name : Str) (names : List (Option Str)) : Int :=
  find_radiomaster_index_from g_target_name names 0

/-- The target name `main` establishes (main.cpp:147-153): the default, or the
lower-cased value of `--name`. -/
def target_of_args (name_arg : Option Str) : Str :=
  match name_arg with
  | none => default_target_name
  | some a => toLower a

/-- Containment ignoring ASCII letter case, in the words of the device matcher's
contract: `needle` occurs in `name` once both are folded to lower case. -/
def containsIgnoreCase (name needle : Str) : Prop :=
  toLower needle <:+: toLower name

/-- A device name matches when, ignoring letter case, it contains the target or
one of the two vendor aliases (the matcher's contract). -/
def Matches (target : Str) (name : Option Str) : Prop :=
  containsIgnoreCase (name.getD "(unknown)".toList) target
    ∨ containsIgnoreCase (name.getD "(unknown)".toList) "radiomaster".toList
    ∨ containsIgnoreCase (name.getD "(unknown)".toList) "edgetx".toList

instance (name needle : Str) : Decidable (containsIgnoreCase name needle) := by
  unfold containsIgnoreCase
  infer_instance

instance (target : Str) (name : Option Str) : Decidable (Matches target name) := by
  unfold Matches
  infer_instance

/-! ## Device lifecycle -/

/-- What SDL answers about one slot of the device list. -/
structure Joystick where
  /-- The answer of `SDL_JoystickNameForIndex(i)`, `none` for a null pointer. -/
  name : Option Str
  /-- The answer of `SDL_JoystickOpen(i)`: `none` for a null pointer, else the handle together
  with its `SDL_JoystickInstanceID`. -/
  opened : Option (Nat × Int)
  deriving DecidableEq

/-- The device list at one instant. -/
abbrev Env := List Joystick

/-- The three places where `main` calls `SDL_JoystickClose`. -/
inductive CloseSite
  /-- main.cpp:189, `try_open` replacing an open joystick. -/
  | replace
  /-- main.cpp:247, the handler of `SDL_JOYDEVICEREMOVED`. -/
  | removed
  /-- main.cpp:382, after the loop. -/
  | shutdown
  deriving DecidableEq

/-- What the call `send(g_sock, ..., 0)` of main.cpp:370 can do on the POSIX
branch. -/
inductive SendOutcome
  /-- The call returns `sent`: the number of bytes taken, or a negative value
  for an error reported through `errno`. -/
  | returned (sent : Int)
  /-- The connection is no longer connected: `SIGPIPE` is generated, and as the
  flags are `0` and the program installs no handler the process is terminated
  inside `send`. -/
  | sigpipe
  deriving DecidableEq

/-- The calls the program makes, in order. -/
inductive Effect
  /-- The lambda `try_open` was entered and `find_radiomaster_index` returned `idx`
  (main.cpp:174); `joyOpen` tells whether `joy` was non-null at that moment. -/
  | discovery (joyOpen : Bool) (idx : Int)
  /-- The lambda `try_open` returned at main.cpp:183, keeping the open joystick. -/
  | keepSame (idx : Int)
  /-- A call of `SDL_JoystickClose(joy)`. -/
  | joystickClose (handle : Nat) (site : CloseSite)
  /-- A call of `SDL_JoystickOpen(idx)` and its result. -/
  | joystickOpen (idx : Int) (result : Option (Nat × Int))
  /-- The frame text written to the console (main.cpp:353). -/
  | console (json : Str)
  /-- A call of `send(g_sock, net_json, ...)` and what it did (main.cpp:370). -/
  | send (fd : Int) (payload : Str) (outcome : SendOutcome)
  /-- The calls of `shutdown` and `close` of the socket in `close_stream` (main.cpp:124-125). -/
  | closeSocket (fd : Int)
  deriving DecidableEq

/-- The variables of `main` and the globals it works on, and whether the process
still runs. -/
structure State where
  /-- The pointer `SDL_Joystick* joy`, `none` for `nullptr`. -/
  joy : Option Nat
  opened_instance_id : Int
  opened_device_index : Int
  /-- The global socket; valid iff `g_sock >= 0`. -/
  g_sock : Int
  running : Bool
  /-- The variable `last_print`, in milliseconds of the steady clock. -/
  last_print : Int
  /-- The `static int attempt_count` of main.cpp:260. -/
  attempt_count : Int
  /-- The process was terminated by a signal; no statement of the program runs
  once this is true. -/
  terminated : Bool
  deriving DecidableEq

/-- The lambda `try_open` (main.cpp:173-212). -/
def try_open (g_target_name : Str) (env : Env) (s : State) : Bool × State × List Effect :=
  let idx := find_radiomaster_index g_target_name (env.map (·.name))
  let entered := Effect.discovery s.joy.isSome idx
  if idx < 0 then (false, s, [entered])
  else if s.joy.isSome ∧ s.opened_device_index = idx then
    (true, s, [entered, Effect.keepSame idx])
  else
    let closed : State × List Effect :=
      match s.joy with
      | some h =>
        ({ s with joy := none, opened_instance_id := -1, opened_device_index := -1 },
          [Effect.joystickClose h CloseSite.replace])
      | none => (s, [])
    match (env[idx.toNat]?).bind (·.opened) with
    | none => (false, closed.1, entered :: closed.2 ++ [Effect.joystickOpen idx none])
    | some (j, id) =>
      (true,
        { closed.1 with opened_device_index := idx, opened_instance_id := id, joy := some j },
        entered :: closed.2 ++ [Effect.joystickOpen idx (some (j, id))])

/-- The events `SDL_PollEvent` delivers, as far as the `switch` of main.cpp:233
tells them apart. A device-added event carries the device list at that time. -/
inductive Event
  | quit
  | joyDeviceAdded (which : Int) (env : Env)
  | joyDeviceRemoved (which : Int)
  | other
  deriving DecidableEq

/-- One pass of the `switch` of main.cpp:233-256. -/
def handle_event (g_target_name : Str) (ev : Event) (s : State) : State × List Effect :=
  match ev with
  | Event.quit => ({ s with running := false }, [])
  | Event.joyDeviceAdded _ env =>
    if s.joy.isNone then
      let r := try_open g_target_name env s
      (r.2.1, r.2.2)
    else (s, [])
  | Event.joyDeviceRemoved which =>
    match s.joy with
    | some h =>
      let removed_id := which
      if removed_id = s.opened_instance_id then
        ({ s with joy := none, opened_instance_id := -1, opened_device_index := -1 },
          [Effect.joystickClose h CloseSite.removed])
      else (s, [])
    | none => (s, [])
  | Event.other => (s, [])

/-- The inner loop `while (SDL_PollEvent(&ev))` (main.cpp:232-257). -/
def drain_events (g_target_name : Str) : List Event → State → State × List Effect
  | [], s => (s, [])
  | ev :: rest, s =>
    let r1 := handle_event g_target_name ev s
    let r2 := drain_events g_target_name rest r1.1
    (r2.1, r1.2 ++ r2.2)

/-! ## Frame builder and send path -/

/-- The text `ss` holds at main.cpp:331. -/
def render_json (name : Option Str) (opened_device_index : Int) (guid_str timebuf : Str)
    (c : Channels) : Str :=
  "\x7b\n".toList
    ++ " \"device\": \x7b\n".toList
    ++ " \"name\": \"".toList ++ name.getD "(unknown)".toList ++ "\",\n".toList
    ++ " \"index\": ".toList ++ (toString opened_device_index).toList ++ ",\n".toList
    ++ " \"guid\": \"".toList ++ guid_str ++ "\",\n".toList
    ++ " \"timestamp\": \"".toList ++ timebuf ++ "\"\n".toList
    ++ " \x7d,\n".toList
    ++ " \"left_stick\": \x7b\n".toList
    ++ " \"yaw\": ".toList ++ fixed3 c.yaw ++ ",\n".toList
    ++ " \"throttle\": ".toList ++ fixed3 c.throttle ++ "\n".toList
    ++ " \x7d,\n".toList
    ++ " \"right_stick\": \x7b\n".toList
    ++ " \"pitch\": ".toList ++ fixed3 c.pitch ++ ",\n".toList
    ++ " \"roll\": ".toList ++ fixed3 c.roll ++ "\n".toList
    ++ " \x7d\n".toList
    ++ "\x7d\n".toList

/-- The loop of main.cpp:336-339: `json` without its `\n` and `\r`. -/
def strip_newlines (json : Str) : Str :=
  json.foldl (fun acc c => if c = '\n' ∨ c = '\r' then acc else acc ++ [c]) []

/-- The network payload `net_json` (main.cpp:334-340). -/
def net_json (json : Str) : Str :=
  strip_newlines json ++ ['\n']

/-- The function `close_stream` (main.cpp:110-129). -/
def close_stream (s : State) : State × List Effect :=
  if s.g_sock ≥ 0 then ({ s with g_sock := -1 }, [Effect.closeSocket s.g_sock])
  else (s, [])

/-- What one iteration of the outer loop reads from outside. -/
structure Tick where
  /-- The events `SDL_PollEvent` delivers in this iteration. -/
  events : List Event
  /-- The device list the idle retry of main.cpp:261 would see. -/
  env : Env
  /-- The value of `std::chrono::steady_clock::now()` in milliseconds (main.cpp:267). -/
  now : Int
  /-- The values of `SDL_JoystickGetAxis` for the axes `0 .. SDL_JoystickNumAxes-1`. -/
  axis_values : List Int
  /-- The answer of `SDL_JoystickName(joy)`. -/
  name : Option Str
  guid_str : Str
  timebuf : Str
  /-- What `send` would do if called in this iteration (main.cpp:370). -/
  sent : SendOutcome
  deriving DecidableEq

/-- The publish step (main.cpp:267-377), run with a joystick open. When `send`
raises `SIGPIPE` the process ends inside the call: the test `sent < 0` and
`close_stream` of main.cpp:371-374 are not reached. -/
def publish (t : Tick) (s : State) : State × List Effect :=
  if t.now - s.last_print ≥ 100 then
    let s1 := { s with last_print := t.now }
    let json := render_json t.name s.opened_device_index t.guid_str t.timebuf
      (channels t.axis_values)
    let net := net_json json
    if s1.g_sock ≥ 0 then
      match t.sent with
      | SendOutcome.sigpipe =>
        ({ s1 with terminated := true },
          [Effect.console json, Effect.send s1.g_sock net SendOutcome.sigpipe])
      | SendOutcome.returned sent =>
        if sent < 0 then
          let r := close_stream s1
          (r.1, [Effect.console json, Effect.send s1.g_sock net (SendOutcome.returned sent)]
            ++ r.2)
        else (s1, [Effect.console json, Effect.send s1.g_sock net (SendOutcome.returned sent)])
    else (s1, [Effect.console json])
  else (s, [])

/-- One iteration of `while (running)` (main.cpp:230-380). -/
def loop_iteration (g_target_name : Str) (t : Tick) (s : State) : State × List Effect :=
  let r1 := drain_events g_target_name t.events s
  match r1.1.joy with
  | none =>
    let s2 := { r1.1 with attempt_count := r1.1.attempt_count + 1 }
    if s2.attempt_count % 10 = 0 then
      let r := try_open g_target_name t.env s2
      (r.2.1, r1.2 ++ r.2.2)
    else (s2, r1.2)
  | some _ =>
    let r2 := publish t r1.1
    (r2.1, r1.2 ++ r2.2)

/-- The loop `while (running)` over the iterations `ticks` describes; nothing
runs once the process is terminated. -/
def main_loop (g_target_name : Str) : List Tick → State → State × List Effect
  | [], s => (s, [])
  | t :: ts, s =>
    if s.terminated then (s, [])
    else if s.running then
      let r1 := loop_iteration g_target_name t s
      let r2 := main_loop g_target_name ts r1.1
      (r2.1, r1.2 ++ r2.2)
    else (s, [])

/-- The value `init_stream` leaves in `g_sock` (main.cpp:52-108): `sockfd` is what
`socket` returns and `conn_res` what `connect` returns. -/
def init_stream (sockfd conn_res : Int) : Int :=
  if sockfd < 0 then sockfd
  else if conn_res < 0 then -1
  else sockfd

/-- The state of `main` when `try_open` is first called (main.cpp:165-171, 217-219);
`t0` is the steady clock at start. -/
def initial_state (sockfd conn_res t0 : Int) : State :=
  { joy := none
    opened_instance_id := -1
    opened_device_index := -1
    g_sock := init_stream sockfd conn_res
    running := true
    last_print := t0 - 100
    attempt_count := 0
    terminated := false }

/-- The code after the loop (main.cpp:382-383). -/
def shutdown (s : State) : State × List Effect :=
  let e1 := match s.joy with
    | some h => [Effect.joystickClose h CloseSite.shutdown]
    | none => []
  let r := close_stream s
  (r.1, e1 ++ r.2)

/-- The function `main` (main.cpp:145-386) run over the iterations `ticks` describes; the code
after the loop runs when the loop has ended, that is when `running` is false,
and not at all when the process was terminated. -/
def main (name_arg : Option Str) (sockfd conn_res t0 : Int) (env0 : Env)
    (ticks : List Tick) : State × List Effect :=
  let g_target_name := target_of_args name_arg
  let r0 := try_open g_target_name env0 (initial_state sockfd conn_res t0)
  let r1 := main_loop g_target_name ticks r0.2.1
  if r1.1.terminated then (r1.1, r0.2.2 ++ r1.2)
  else if r1.1.running then (r1.1, r0.2.2 ++ r1.2)
  else
    let r2 := shutdown r1.1
    (r2.1, r0.2.2 ++ r1.2 ++ r2.2)

/-! ## Classes of effects and example data -/

/-- The effects of the device lifecycle: discovery, keeping, closing and opening
a joystick. -/
def Effect.isLifecycle : Effect → Bool
  | Effect.discovery _ _ => true
  | Effect.keepSame _ => true
  | Effect.joystickClose _ _ => true
  | Effect.joystickOpen _ _ => true
  | _ => false

/-- The effects that only a `try_open` entered with a joystick open can produce:
the entry itself, the early return of main.cpp:183 and the close of
main.cpp:189. -/
def Effect.isReopen : Effect → Bool
  | Effect.discovery true _ => true
  | Effect.keepSame _ => true
  | Effect.joystickClose _ CloseSite.replace => true
  | _ => false

/-- A device list: a game pad at index 0 and the transmitter at index 1. -/
def env_example : Env :=
  [ { name := some "Xbox Pad".toList, opened := some (7, 70) },
    { name := some "RadioMaster Pocket Joystick".toList, opened := some (8, 80) } ]

/-- A state with the joystick of handle 8 and instance id 80 open at index 1 and
a valid socket. -/
def state_open : State :=
  { joy := some 8
    opened_instance_id := 80
    opened_device_index := 1
    g_sock := 5
    running := true
    last_print := 900
    attempt_count := 0
    terminated := false }

/-- An iteration at time `now` with the events `events`, in which `send` would
return `sent`. -/
def tick_example (events : List Event) (now sent : Int) : Tick :=
  { events := events
    env := env_example
    now := now
    axis_values := [0, 0, 16383, -16384]
    name := some "RadioMaster Pocket Joystick".toList
    guid_str := "0300".toList
    timebuf := "2024-01-01T00:00:00+0100".toList
    sent := SendOutcome.returned sent }

/-- An iteration at time `now` without events in which the peer has closed the
connection: `send` would raise `SIGPIPE`. -/
def tick_sigpipe (now : Int) : Tick :=
  { tick_example [] now 0 with sent := SendOutcome.sigpipe }

/-- The console frames among the effects. -/
def Effect.isConsole : Effect → Bool
  | Effect.console _ => true
  | _ => false

/-- The calls of `send` among the effects. -/
def Effect.isSend : Effect → Bool
  | Effect.send _ _ _ => true
  | _ => false

/-- The closes of the socket among the effects. -/
def Effect.isCloseSocket : Effect → Bool
  | Effect.closeSocket _ => true
  | _ => false

/-! ## Lemmas on the axis normaliser -/

theorem normalizeAxis_nonneg {v : Int} (h : 0 ≤ v) : normalizeAxis v = (v : ℚ) / 32767 := by
  simp [normalizeAxis, h]

theorem normalizeAxis_neg {v : Int} (h : v < 0) : normalizeAxis v = (v : ℚ) / 32768 := by
  have : ¬ v ≥ 0 := by omega
  simp [normalizeAxis, this]

theorem normalizeAxis_zero : normalizeAxis 0 = 0 := by
  simp [normalizeAxis]

theorem normalizeAxis_lower {v : Int} (h : -32768 ≤ v) : -1 ≤ normalizeAxis v := by
  have hq : (-32768 : ℚ) ≤ (v : ℚ) := by exact_mod_cast h
  by_cases hv : 0 ≤ v
  · have hq0 : (0 : ℚ) ≤ (v : ℚ) := by exact_mod_cast hv
    rw [normalizeAxis_nonneg hv, le_div_iff₀ (by norm_num)]
    linarith
  · rw [normalizeAxis_neg (by omega), le_div_iff₀ (by norm_num)]
    linarith

theorem normalizeAxis_upper {v : Int} (h : v ≤ 32767) : normalizeAxis v ≤ 1 := by
  have hq : (v : ℚ) ≤ 32767 := by exact_mod_cast h
  by_cases hv : 0 ≤ v
  · rw [normalizeAxis_nonneg hv, div_le_iff₀ (by norm_num)]
    linarith
  · rw [normalizeAxis_neg (by omega), div_le_iff₀ (by norm_num)]
    linarith

theorem normalizeAxis_mono {v w : Int} (h : v ≤ w) : normalizeAxis v ≤ normalizeAxis w := by
  have hq : (v : ℚ) ≤ (w : ℚ) := by exact_mod_cast h
  by_cases hv : 0 ≤ v
  · have hq0 : (0 : ℚ) ≤ (v : ℚ) := by exact_mod_cast hv
    rw [normalizeAxis_nonneg hv, normalizeAxis_nonneg (le_trans hv h)]
    exact div_le_div_of_nonneg_right hq (by norm_num)
  · have hvn : v < 0 := by omega
    have hqn : (v : ℚ) < 0 := by exact_mod_cast hvn
    by_cases hw : 0 ≤ w
    · have hqw : (0 : ℚ) ≤ (w : ℚ) := by exact_mod_cast hw
      rw [normalizeAxis_neg hvn, normalizeAxis_nonneg hw]
      have h1 : (v : ℚ) / 32768 ≤ 0 := div_nonpos_of_nonpos_of_nonneg hqn.le (by norm_num)
      have h2 : (0 : ℚ) ≤ (w : ℚ) / 32767 := div_nonneg hqw (by norm_num)
      linarith
    · rw [normalizeAxis_neg hvn, normalizeAxis_neg (by omega)]
      exact div_le_div_of_nonneg_right hq (by norm_num)

theorem safe_norm_out_of_range (axis_values : List Int) (idx : Int)
    (h : idx < 0 ∨ idx ≥ (axis_values.length : Int)) : safe_norm axis_values idx = 0 := by
  simp [safe_norm, h]

theorem safe_norm_in_range (axis_values : List Int) (idx : Int) (v : Int)
    (h0 : 0 ≤ idx) (hv : axis_values[idx.toNat]? = some v) :
    safe_norm axis_values idx = normalizeAxis v := by
  obtain ⟨hlt, hget⟩ := List.getElem?_eq_some_iff.mp hv
  have hnot : ¬ (idx < 0 ∨ idx ≥ (axis_values.length : Int)) := by omega
  simp only [safe_norm, hnot, dite_false, List.get_eq_getElem, hget]

/-- The clamp of `throttle_mapped` as a single expression. -/
theorem throttle_mapped_eq (axis_values : List Int) (idx : Int) :
    throttle_mapped axis_values idx
      = min 1 (max 0 ((safe_norm axis_values idx + 1) / 2)) := by
  simp only [throttle_mapped]
  by_cases h0 : (safe_norm axis_values idx + 1) / 2 < 0
  · have hm : max 0 ((safe_norm axis_values idx + 1) / 2) = 0 := max_eq_left h0.le
    simp [h0, hm]
  · have hm : max 0 ((safe_norm axis_values idx + 1) / 2)
        = (safe_norm axis_values idx + 1) / 2 := max_eq_right (not_lt.mp h0)
    simp only [h0, if_false, hm]
    by_cases h1 : (safe_norm axis_values idx + 1) / 2 > 1
    · simp [h1, min_eq_left h1.le]
    · simp [h1, min_eq_right (not_lt.mp h1)]

theorem throttle_mapped_range (axis_values : List Int) (idx : Int) :
    0 ≤ throttle_mapped axis_values idx ∧ throttle_mapped axis_values idx ≤ 1 := by
  rw [throttle_mapped_eq]
  exact ⟨le_min (by norm_num) (le_max_left _ _), min_le_left _ _⟩

theorem roundHalfEven_eq_of_near (x : ℚ) (n : Int)
    (h1 : (n : ℚ) - 1 / 2 < x) (h2 : x < (n : ℚ) + 1 / 2) : roundHalfEven x = n := by
  have hf1 : (⌊x⌋ : ℚ) ≤ x := Int.floor_le x
  have hf2 : x < (⌊x⌋ : ℚ) + 1 := Int.lt_floor_add_one x
  have hlo : n - 1 ≤ ⌊x⌋ := by
    have : ((n - 2 : Int) : ℚ) < (⌊x⌋ : ℚ) := by push_cast; linarith
    have := Int.cast_lt.mp this
    omega
  have hhi : ⌊x⌋ ≤ n := by
    have : (⌊x⌋ : ℚ) < ((n + 1 : Int) : ℚ) := by push_cast; linarith
    have := Int.cast_lt.mp this
    omega
  rcases (by omega : ⌊x⌋ = n ∨ ⌊x⌋ = n - 1) with hfl | hfl
  · have hr : x - (n : ℚ) < 1 / 2 := by linarith
    simp only [roundHalfEven, hfl, hr, if_true]
  · have hr1 : ¬ (x - ((n - 1 : Int) : ℚ) < 1 / 2) := by push_cast; linarith
    have hr2 : 1 / 2 < x - ((n - 1 : Int) : ℚ) := by push_cast; linarith
    simp only [roundHalfEven, hfl, hr1, hr2, if_true, if_false]
    omega

theorem round3_eq_of_near (x : ℚ) (n : Int)
    (h1 : (n : ℚ) - 1 / 2 < x * 1000) (h2 : x * 1000 < (n : ℚ) + 1 / 2) :
    round3 x = (n : ℚ) / 1000 := by
  rw [round3, roundHalfEven_eq_of_near _ n h1 h2]

/-- The channels of the sample `[0, 0, 16383, -16384]`, before rounding. -/
theorem channels_scenario :
    channels [0, 0, 16383, -16384]
      = { yaw := -1 / 2, throttle := 24575 / 32767, pitch := 0, roll := 0 } := by
  have hy : safe_norm [0, 0, 16383, -16384] left_x = -1 / 2 := by
    rw [safe_norm_in_range _ left_x (-16384) (by decide) (by decide),
      normalizeAxis_neg (by decide)]
    norm_num
  have ht : safe_norm [0, 0, 16383, -16384] left_y = 16383 / 32767 := by
    rw [safe_norm_in_range _ left_y 16383 (by decide) (by decide),
      normalizeAxis_nonneg (by decide)]
    norm_num
  have hp : safe_norm [0, 0, 16383, -16384] right_y = 0 := by
    rw [safe_norm_in_range _ right_y 0 (by decide) (by decide), normalizeAxis_zero]
  have hr : safe_norm [0, 0, 16383, -16384] right_x = 0 := by
    rw [safe_norm_in_range _ right_x 0 (by decide) (by decide), normalizeAxis_zero]
  have htm : throttle_mapped [0, 0, 16383, -16384] left_y = 24575 / 32767 := by
    rw [throttle_mapped_eq, ht]
    norm_num
  simp only [channels, hy, htm, hp, hr]

/-! ## The claims on the axis normaliser -/

/-- C1: every raw axis value `v` with `-32768 ≤ v ≤ 32767` is normalised into
`[-1, 1]`, and the two extremes land exactly on `1` and `-1`. -/
theorem C1_normalizeAxis_range (v : Int) (hlo : -32768 ≤ v) (hhi : v ≤ 32767) :
    -1 ≤ normalizeAxis v ∧ normalizeAxis v ≤ 1
      ∧ normalizeAxis 32767 = 1 ∧ normalizeAxis (-32768) = -1 := by
  refine ⟨normalizeAxis_lower hlo, normalizeAxis_upper hhi, ?_, ?_⟩
  · rw [normalizeAxis_nonneg (by decide)]
    norm_num
  · rw [normalizeAxis_neg (by decide)]
    norm_num

/-- Witness of C1 at the raw value `-1`, the last one divided by 32768. -/
theorem C1_normalizeAxis_range_witness :
    -1 ≤ normalizeAxis (-1) ∧ normalizeAxis (-1) ≤ 1
      ∧ normalizeAxis 32767 = 1 ∧ normalizeAxis (-32768) = -1 :=
  C1_normalizeAxis_range (-1) (by decide) (by decide)

/-- C2: for raw values `v ≤ w` in `[-32768, 32767]`, read at in-range indices of
two sampled vectors, the remapped throttle lies in `[0, 1]` and
`throttle(v) ≤ throttle(w)`, also across the change of divisor between `-1`
and `0`. -/
theorem C2_throttle_range_monotone (av aw : List Int) (i j : Int) (v w : Int)
    (hi : 0 ≤ i) (hj : 0 ≤ j)
    (hv : av[i.toNat]? = some v) (hw : aw[j.toNat]? = some w)
    (hlo : -32768 ≤ v) (hvw : v ≤ w) (hhi : w ≤ 32767) :
    0 ≤ throttle_mapped av i ∧ throttle_mapped av i ≤ 1
      ∧ throttle_mapped av i = (normalizeAxis v + 1) / 2
      ∧ throttle_mapped av i ≤ throttle_mapped aw j := by
  have h1 := normalizeAxis_lower hlo
  have h2 := normalizeAxis_upper (le_trans hvw hhi)
  refine ⟨(throttle_mapped_range av i).1, (throttle_mapped_range av i).2, ?_, ?_⟩
  · rw [throttle_mapped_eq, safe_norm_in_range av i v hi hv]
    rw [max_eq_right (by linarith), min_eq_right (by linarith)]
  · rw [throttle_mapped_eq, throttle_mapped_eq, safe_norm_in_range av i v hi hv,
      safe_norm_in_range aw j w hj hw]
    have hm := normalizeAxis_mono hvw
    exact min_le_min le_rfl (max_le_max le_rfl (by linarith))

/-- Witness of C2 across the sign change: `v = -1` and `w = 0`. -/
theorem C2_throttle_range_monotone_witness :
    0 ≤ throttle_mapped [0, 0, -1] 2 ∧ throttle_mapped [0, 0, -1] 2 ≤ 1
      ∧ throttle_mapped [0, 0, -1] 2 = (normalizeAxis (-1) + 1) / 2
      ∧ throttle_mapped [0, 0, -1] 2 ≤ throttle_mapped [0, 0, 0] 2 :=
  C2_throttle_range_monotone [0, 0, -1] [0, 0, 0] 2 2 (-1) 0 (by decide) (by decide)
    (by decide) (by decide) (by decide) (by decide) (by decide)

/-- C3, as stated, fails: for the sample `[0, 0, 16383, -16384]` the throttle shown
with three decimals is not `1.0`. -/
theorem C3_scenario_counterexample :
    ¬ (round3 (channels [0, 0, 16383, -16384]).yaw = -1 / 2
        ∧ round3 (channels [0, 0, 16383, -16384]).throttle = 1
        ∧ round3 (channels [0, 0, 16383, -16384]).pitch = 0
        ∧ round3 (channels [0, 0, 16383, -16384]).roll = 0) := by
  rintro ⟨-, ht, -, -⟩
  rw [channels_scenario] at ht
  rw [round3_eq_of_near (24575 / 32767) 750 (by norm_num) (by norm_num)] at ht
  norm_num at ht

/-- C3, amended: for the sample `[0, 0, 16383, -16384]` and the fixed mapping the
channels rounded to three decimals are yaw `-0.5`, throttle `0.75`, pitch `0.0`
and roll `0.0`; the throttle is `24575/32767` before rounding and is written
as `0.750`. -/
theorem C3_scenario_amended :
    round3 (channels [0, 0, 16383, -16384]).yaw = -1 / 2
      ∧ round3 (channels [0, 0, 16383, -16384]).throttle = 3 / 4
      ∧ round3 (channels [0, 0, 16383, -16384]).pitch = 0
      ∧ round3 (channels [0, 0, 16383, -16384]).roll = 0
      ∧ (channels [0, 0, 16383, -16384]).throttle = 24575 / 32767
      ∧ fixed3 (channels [0, 0, 16383, -16384]).throttle = "0.750".toList
      ∧ fixed3 (channels [0, 0, 16383, -16384]).yaw = "-0.500".toList := by
  rw [channels_scenario]
  refine ⟨?_, ?_, ?_, ?_, rfl, ?_, ?_⟩
  · rw [round3_eq_of_near (-1 / 2) (-500) (by norm_num) (by norm_num)]
    norm_num
  · rw [round3_eq_of_near (24575 / 32767) 750 (by norm_num) (by norm_num)]
    norm_num
  · rw [round3_eq_of_near 0 0 (by norm_num) (by norm_num)]
    norm_num
  · rw [round3_eq_of_near 0 0 (by norm_num) (by norm_num)]
    norm_num
  · have h : roundHalfEven (|(24575 / 32767 : ℚ)| * 1000) = 750 :=
      roundHalfEven_eq_of_near _ 750 (by rw [abs_of_nonneg (by norm_num)]; norm_num)
        (by rw [abs_of_nonneg (by norm_num)]; norm_num)
    have hneg : ¬ ((24575 / 32767 : ℚ) < 0) := by norm_num
    simp only [fixed3, h, hneg, if_false]
    decide
  · have h : roundHalfEven (|(-1 / 2 : ℚ)| * 1000) = 500 :=
      roundHalfEven_eq_of_near _ 500 (by rw [abs_of_nonpos (by norm_num)]; norm_num)
        (by rw [abs_of_nonpos (by norm_num)]; norm_num)
    have hneg : ((-1 / 2 : ℚ) < 0) := by norm_num
    simp only [fixed3, h, hneg, if_true]
    decide

/-- Padding the sampled vector with raw zeros changes no reading of `safe_norm`. -/
theorem safe_norm_pad (av : List Int) (k : Nat) (idx : Int) :
    safe_norm (av ++ List.replicate k 0) idx = safe_norm av idx := by
  by_cases hneg : idx < 0
  · rw [safe_norm_out_of_range _ _ (Or.inl hneg), safe_norm_out_of_range _ _ (Or.inl hneg)]
  · have h0 : 0 ≤ idx := by omega
    by_cases hin : idx.toNat < av.length
    · have hget : av[idx.toNat]? = some av[idx.toNat] := List.getElem?_eq_getElem hin
      have hget2 : (av ++ List.replicate k 0)[idx.toNat]? = some av[idx.toNat] := by
        rw [List.getElem?_append_left hin, hget]
      rw [safe_norm_in_range _ _ _ h0 hget, safe_norm_in_range _ _ _ h0 hget2]
    · have hout : idx ≥ (av.length : Int) := by omega
      rw [safe_norm_out_of_range av idx (Or.inr hout)]
      by_cases hin2 : idx.toNat < (av ++ List.replicate k 0).length
      · have hget2 : (av ++ List.replicate k 0)[idx.toNat]? = some 0 := by
          rw [List.getElem?_append_right (by omega)]
          rw [List.length_append, List.length_replicate] at hin2
          rw [List.getElem?_replicate]
          simp only [ite_eq_left_iff]
          intro hc
          omega
        rw [safe_norm_in_range _ _ _ h0 hget2, normalizeAxis_zero]
      · exact safe_norm_out_of_range _ _ (Or.inr (by omega))

theorem throttle_mapped_pad (av : List Int) (k : Nat) (idx : Int) :
    throttle_mapped (av ++ List.replicate k 0) idx = throttle_mapped av idx := by
  rw [throttle_mapped_eq, throttle_mapped_eq, safe_norm_pad]

theorem throttle_mapped_out_of_range (axis_values : List Int) (idx : Int)
    (h : idx < 0 ∨ idx ≥ (axis_values.length : Int)) :
    throttle_mapped axis_values idx = 1 / 2 := by
  rw [throttle_mapped_eq, safe_norm_out_of_range _ _ h]
  norm_num

/-- C9: an index outside the sampled vector (negative, or at least its length,
the empty vector included) reads as the neutral value `0`, so the remapped
throttle of a missing axis is `1/2`; the four channels of a short vector are
those of the vector padded with raw zeros up to index 3, a missing yaw, pitch
or roll axis giving `0` and a missing throttle axis `1/2`. -/
theorem C9_out_of_range_neutral (axis_values : List Int) (idx : Int)
    (h : idx < 0 ∨ idx ≥ (axis_values.length : Int)) :
    safe_norm axis_values idx = 0
      ∧ throttle_mapped axis_values idx = 1 / 2
      ∧ channels axis_values
          = channels (axis_values ++ List.replicate (4 - axis_values.length) 0)
      ∧ (axis_values.length ≤ 3 → (channels axis_values).yaw = 0)
      ∧ (axis_values.length ≤ 2 → (channels axis_values).throttle = 1 / 2)
      ∧ (axis_values.length ≤ 1 → (channels axis_values).pitch = 0)
      ∧ (axis_values.length = 0 → (channels axis_values).roll = 0) := by
  refine ⟨safe_norm_out_of_range _ _ h, throttle_mapped_out_of_range _ _ h, ?_, ?_, ?_, ?_, ?_⟩
  · simp only [channels, safe_norm_pad, throttle_mapped_pad]
  · intro hl
    exact safe_norm_out_of_range _ _ (Or.inr (by simp only [left_x]; omega))
  · intro hl
    exact throttle_mapped_out_of_range _ _ (Or.inr (by simp only [left_y]; omega))
  · intro hl
    exact safe_norm_out_of_range _ _ (Or.inr (by simp only [right_y]; omega))
  · intro hl
    exact safe_norm_out_of_range _ _ (Or.inr (by simp only [right_x]; omega))

/-- Witness of C9: a device with two axes read at the throttle index `2`. -/
theorem C9_out_of_range_neutral_witness :
    safe_norm [100, -200] 2 = 0
      ∧ throttle_mapped [100, -200] 2 = 1 / 2
      ∧ channels [100, -200] = channels ([100, -200] ++ List.replicate (4 - 2) 0)
      ∧ (channels [100, -200]).yaw = 0
      ∧ (channels [100, -200]).throttle = 1 / 2 :=
  have h := C9_out_of_range_neutral [100, -200] 2 (by decide)
  ⟨h.1, h.2.1, h.2.2.1, h.2.2.2.1 (by decide), h.2.2.2.2.1 (by decide)⟩


theorem char_toLower_idem (c : Char) : c.toLower.toLower = c.toLower := by
  by_cases h : c.toNat ≥ 65 ∧ c.toNat ≤ 90
  · have hc : c = Char.ofNat c.toNat := (Char.ofNat_toNat c).symm
    obtain ⟨h1, h2⟩ := h
    rw [hc]
    generalize c.toNat = n at h1 h2
    interval_cases n <;> decide
  · have h1 : c.toLower = c := by
      unfold Char.toLower
      simp only [h, if_false]
    rw [h1, h1]

theorem toLower_idem (s : Str) : toLower (toLower s) = toLower s := by
  simp only [toLower, List.map_map]
  apply List.map_congr_left
  intro c _
  exact char_toLower_idem c

theorem strFind_isSome_iff (hay needle : Str) :
    (strFind hay needle).isSome = true ↔ needle <:+: hay := by
  induction hay with
  | nil =>
    unfold strFind
    by_cases hp : needle.isPrefixOf [] = true
    · simp only [hp, if_true, Option.isSome_some, true_iff]
      exact (List.isPrefixOf_iff_prefix.mp hp).isInfix
    · simp only [hp, if_false, Option.isSome_none, Bool.false_eq_true, false_iff]
      intro hin
      exact hp (List.isPrefixOf_iff_prefix.mpr (by rw [List.infix_nil.mp hin]))
  | cons a t ih =>
    unfold strFind
    by_cases hp : needle.isPrefixOf (a :: t) = true
    · simp only [hp, if_true, Option.isSome_some, true_iff]
      exact (List.isPrefixOf_iff_prefix.mp hp).isInfix
    · simp only [hp, Bool.false_eq_true, if_false, Option.isSome_map']
      rw [ih, List.infix_cons_iff]
      constructor
      · exact fun h => Or.inr h
      · rintro (h | h)
        · exact absurd (List.isPrefixOf_iff_prefix.mpr h) hp
        · exact h

theorem default_target_name_lower : toLower default_target_name = default_target_name := by
  decide

theorem target_of_args_lower (name_arg : Option Str) :
    toLower (target_of_args name_arg) = target_of_args name_arg := by
  cases name_arg with
  | none => exact default_target_name_lower
  | some a => exact toLower_idem a

theorem is_candidate_getD (target : Str) (name : Option Str) :
    is_candidate target name
      = ((strFind (toLower (name.getD "(unknown)".toList)) target).isSome
          || (strFind (toLower (name.getD "(unknown)".toList)) "radiomaster".toList).isSome
          || (strFind (toLower (name.getD "(unknown)".toList)) "edgetx".toList).isSome) := by
  cases name <;> rfl

theorem is_candidate_iff (target : Str) (htarget : toLower target = target)
    (name : Option Str) : is_candidate target name = true ↔ Matches target name := by
  have h1 : toLower "radiomaster".toList = "radiomaster".toList := by decide
  have h2 : toLower "edgetx".toList = "edgetx".toList := by decide
  simp only [is_candidate_getD, Matches, containsIgnoreCase, Bool.or_eq_true,
    strFind_isSome_iff, htarget, h1, h2, or_assoc]

/-- The loop answers `-1` or an index of the part of the list it scans. -/
theorem find_from_range (target : Str) (names : List (Option Str)) (i : Int) :
    find_radiomaster_index_from target names i = -1
      ∨ (i ≤ find_radiomaster_index_from target names i
          ∧ find_radiomaster_index_from target names i < i + names.length) := by
  induction names generalizing i with
  | nil => exact Or.inl rfl
  | cons name rest ih =>
    unfold find_radiomaster_index_from
    by_cases hc : is_candidate target name = true
    · simp only [hc, if_true, List.length_cons]
      right
      constructor <;> omega
    · simp only [hc, Bool.false_eq_true, if_false, List.length_cons]
      rcases ih (i + 1) with h | h
      · exact Or.inl h
      · right
        constructor <;> omega

theorem find_from_eq_iff (target : Str) (names : List (Option Str)) (i : Int) (hi : 0 ≤ i)
    (k : Nat) :
    find_radiomaster_index_from target names i = i + k
      ↔ (∃ n, names[k]? = some n ∧ is_candidate target n = true)
          ∧ ∀ j, j < k → ∀ m, names[j]? = some m → is_candidate target m = false := by
  induction names generalizing i k with
  | nil =>
    unfold find_radiomaster_index_from
    constructor
    · intro h
      omega
    · rintro ⟨⟨n, hn, -⟩, -⟩
      simp at hn
  | cons name rest ih =>
    unfold find_radiomaster_index_from
    by_cases hc : is_candidate target name = true
    · simp only [hc, if_true]
      constructor
      · intro h
        have hk : k = 0 := by omega
        subst hk
        exact ⟨⟨name, by simp, hc⟩, fun j hj => absurd hj (Nat.not_lt_zero j)⟩
      · rintro ⟨-, hall⟩
        cases k with
        | zero => simp
        | succ k =>
          have := hall 0 (Nat.succ_pos k) name (by simp)
          rw [hc] at this
          exact absurd this (by decide)
    · have hcf : is_candidate target name = false := by simpa using hc
      simp only [hc, Bool.false_eq_true, if_false]
      cases k with
      | zero =>
        constructor
        · intro h
          rcases find_from_range target rest (i + 1) with h1 | h1
          · omega
          · have := h1.1
            simp only [Nat.cast_zero, add_zero] at h
            omega
        · rintro ⟨⟨n, hn, hcn⟩, -⟩
          simp only [List.getElem?_cons_zero, Option.some.injEq] at hn
          subst hn
          exact absurd hcn hc
      | succ k =>
        have hcast : i + ((k + 1 : Nat) : Int) = (i + 1) + (k : Int) := by push_cast; ring
        rw [hcast, ih (i + 1) (by omega) k]
        simp only [List.getElem?_cons_succ]
        constructor
        · rintro ⟨hex, hall⟩
          refine ⟨hex, ?_⟩
          intro j hj m hm
          cases j with
          | zero =>
            simp only [List.getElem?_cons_zero, Option.some.injEq] at hm
            subst hm
            exact hcf
          | succ j =>
            simp only [List.getElem?_cons_succ] at hm
            exact hall j (by omega) m hm
        · rintro ⟨hex, hall⟩
          refine ⟨hex, ?_⟩
          intro j hj m hm
          exact hall (j + 1) (by omega) m (by simpa using hm)

theorem find_from_eq_neg_one_iff (target : Str) (names : List (Option Str)) (i : Int)
    (hi : 0 ≤ i) :
    find_radiomaster_index_from target names i = -1
      ↔ ∀ n ∈ names, is_candidate target n = false := by
  induction names generalizing i with
  | nil => simp [find_radiomaster_index_from]
  | cons name rest ih =>
    unfold find_radiomaster_index_from
    by_cases hc : is_candidate target name = true
    · simp only [hc, if_true, List.mem_cons, forall_eq_or_imp, Bool.true_eq_false, false_and,
        iff_false]
      omega
    · have hcf : is_candidate target name = false := by simpa using hc
      simp only [hc, Bool.false_eq_true, if_false, List.mem_cons, forall_eq_or_imp, hcf,
        true_and]
      exact ih (i + 1) (by omega)

/-- The matcher reads the device names only through their lower-case folding. -/
theorem find_from_congr (target : Str) (names names2 : List (Option Str)) (i : Int)
    (h : names.map (fun n => toLower (n.getD "(unknown)".toList))
          = names2.map (fun n => toLower (n.getD "(unknown)".toList))) :
    find_radiomaster_index_from target names i
      = find_radiomaster_index_from target names2 i := by
  induction names generalizing names2 i with
  | nil =>
    cases names2 with
    | nil => rfl
    | cons b r => simp at h
  | cons a rest ih =>
    cases names2 with
    | nil => simp at h
    | cons b r =>
      simp only [List.map_cons, List.cons.injEq] at h
      have hab : is_candidate target a = is_candidate target b := by
        rw [is_candidate_getD, is_candidate_getD, h.1]
      unfold find_radiomaster_index_from
      rw [hab, ih r (i + 1) h.2]

/-! ## The claim on the device matcher -/

/-- C4: with the target `main` establishes (the default, or the lower-cased
`--name` argument), `find_radiomaster_index` answers the smallest index whose
name contains, ignoring ASCII letter case, the target, `radiomaster` or
`edgetx` (a missing name read as `(unknown)`), and `-1` exactly when no name
does; device lists that differ in letter case only get the same answer. -/
theorem C4_matcher_first_match (name_arg : Option Str) (names names2 : List (Option Str)) :
    (∀ k : Nat, find_radiomaster_index (target_of_args name_arg) names = (k : Int)
        ↔ (∃ n, names[k]? = some n ∧ Matches (target_of_args name_arg) n)
            ∧ ∀ j, j < k → ∀ m, names[j]? = some m → ¬ Matches (target_of_args name_arg) m)
      ∧ (find_radiomaster_index (target_of_args name_arg) names = -1
          ↔ ∀ n ∈ names, ¬ Matches (target_of_args name_arg) n)
      ∧ (find_radiomaster_index (target_of_args name_arg) names = -1
          ∨ (0 ≤ find_radiomaster_index (target_of_args name_arg) names
              ∧ find_radiomaster_index (target_of_args name_arg) names < names.length))
      ∧ (names.map (fun n => toLower (n.getD "(unknown)".toList))
            = names2.map (fun n => toLower (n.getD "(unknown)".toList))
          → find_radiomaster_index (target_of_args name_arg) names
              = find_radiomaster_index (target_of_args name_arg) names2) := by
  have hl := target_of_args_lower name_arg
  refine ⟨?_, ?_, ?_, ?_⟩
  · intro k
    have h := find_from_eq_iff (target_of_args name_arg) names 0 le_rfl k
    rw [zero_add] at h
    rw [find_radiomaster_index, h]
    simp only [is_candidate_iff _ hl, ← Bool.not_eq_true]
  · rw [find_radiomaster_index, find_from_eq_neg_one_iff _ _ 0 le_rfl]
    simp only [is_candidate_iff _ hl, ← Bool.not_eq_true]
  · have h := find_from_range (target_of_args name_arg) names 0
    rw [zero_add] at h
    exact h
  · intro h
    exact find_from_congr _ _ _ 0 h

/-- Witness of C4: `RadioMaster Pocket` and `radiomaster pocket` in second place
are both found at index 1 for the default target. -/
theorem C4_matcher_first_match_witness :
    find_radiomaster_index (target_of_args none)
        [some "Xbox Pad".toList, some "RadioMaster Pocket".toList]
      = find_radiomaster_index (target_of_args none)
        [some "xbox pad".toList, some "radiomaster pocket".toList]
    ∧ find_radiomaster_index (target_of_args none)
        [some "Xbox Pad".toList, some "RadioMaster Pocket".toList] = 1
    ∧ Matches (target_of_args none) (some "RadioMaster Pocket".toList)
    ∧ ¬ Matches (target_of_args none) (some "Xbox Pad".toList) :=
  ⟨(C4_matcher_first_match none [some "Xbox Pad".toList, some "RadioMaster Pocket".toList]
      [some "xbox pad".toList, some "radiomaster pocket".toList]).2.2.2 (by decide),
    by decide, by decide, by decide⟩


/-! ## Lemmas on the device lifecycle -/

theorem try_open_not_found (g : Str) (env : Env) (s : State)
    (h : find_radiomaster_index g (env.map (·.name)) < 0) :
    try_open g env s
      = (false, s, [Effect.discovery s.joy.isSome
          (find_radiomaster_index g (env.map (·.name)))]) := by
  simp only [try_open, h, if_true]

theorem try_open_keep (g : Str) (env : Env) (s : State) (hd : Nat)
    (h : 0 ≤ find_radiomaster_index g (env.map (·.name)))
    (hopen : s.joy = some hd)
    (hidx : s.opened_device_index = find_radiomaster_index g (env.map (·.name))) :
    try_open g env s
      = (true, s, [Effect.discovery true (find_radiomaster_index g (env.map (·.name))),
          Effect.keepSame (find_radiomaster_index g (env.map (·.name)))]) := by
  have h1 : ¬ find_radiomaster_index g (env.map (·.name)) < 0 := by omega
  simp only [try_open, h1, if_false, hopen, Option.isSome_some, hidx, and_self, if_true]

theorem try_open_from_closed (g : Str) (env : Env) (s : State)
    (h : 0 ≤ find_radiomaster_index g (env.map (·.name))) (hclosed : s.joy = none) :
    try_open g env s
      = match (env[(find_radiomaster_index g (env.map (·.name))).toNat]?).bind (·.opened) with
        | none =>
          (false, s, [Effect.discovery false (find_radiomaster_index g (env.map (·.name))),
            Effect.joystickOpen (find_radiomaster_index g (env.map (·.name))) none])
        | some (j, id) =>
          (true,
            { s with
              opened_device_index := find_radiomaster_index g (env.map (·.name))
              opened_instance_id := id
              joy := some j },
            [Effect.discovery false (find_radiomaster_index g (env.map (·.name))),
              Effect.joystickOpen (find_radiomaster_index g (env.map (·.name)))
                (some (j, id))]) := by
  have h1 : ¬ find_radiomaster_index g (env.map (·.name)) < 0 := by omega
  simp only [try_open, h1, if_false, hclosed, Option.isSome_none, Bool.false_eq_true,
    false_and, List.nil_append, List.cons_append]

/-- Entered with no joystick open, `try_open` produces no effect of a re-open. -/
theorem try_open_from_closed_effects (g : Str) (env : Env) (s : State) (hclosed : s.joy = none) :
    ∀ e ∈ (try_open g env s).2.2, e.isLifecycle = true ∧ e.isReopen = false := by
  intro e he
  by_cases h : find_radiomaster_index g (env.map (·.name)) < 0
  · rw [try_open_not_found g env s h, hclosed] at he
    simp only [Option.isSome_none, List.mem_singleton] at he
    subst he
    exact ⟨rfl, rfl⟩
  · rw [try_open_from_closed g env s (by omega) hclosed] at he
    split at he
    · simp only [List.mem_cons, List.mem_singleton, List.not_mem_nil, or_false] at he
      rcases he with he | he <;> subst he <;> exact ⟨rfl, rfl⟩
    · simp only [List.mem_cons, List.mem_singleton, List.not_mem_nil, or_false] at he
      rcases he with he | he <;> subst he <;> exact ⟨rfl, rfl⟩

/-- The lambda `try_open` touches the joystick variables only. -/
theorem try_open_frame (g : Str) (env : Env) (s : State) :
    (try_open g env s).2.1.g_sock = s.g_sock
      ∧ (try_open g env s).2.1.running = s.running
      ∧ (try_open g env s).2.1.last_print = s.last_print
      ∧ (try_open g env s).2.1.attempt_count = s.attempt_count := by
  unfold try_open
  simp only
  split_ifs
  · exact ⟨rfl, rfl, rfl, rfl⟩
  · exact ⟨rfl, rfl, rfl, rfl⟩
  · split <;> cases s.joy <;> exact ⟨rfl, rfl, rfl, rfl⟩

theorem try_open_replace (g : Str) (env : Env) (s : State) (hd : Nat)
    (h : 0 ≤ find_radiomaster_index g (env.map (·.name)))
    (hopen : s.joy = some hd)
    (hidx : s.opened_device_index ≠ find_radiomaster_index g (env.map (·.name))) :
    try_open g env s
      = match (env[(find_radiomaster_index g (env.map (·.name))).toNat]?).bind (·.opened) with
        | none =>
          (false,
            { s with joy := none, opened_instance_id := -1, opened_device_index := -1 },
            [Effect.discovery true (find_radiomaster_index g (env.map (·.name))),
              Effect.joystickClose hd CloseSite.replace,
              Effect.joystickOpen (find_radiomaster_index g (env.map (·.name))) none])
        | some (j, id) =>
          (true,
            { s with
              opened_device_index := find_radiomaster_index g (env.map (·.name))
              opened_instance_id := id
              joy := some j },
            [Effect.discovery true (find_radiomaster_index g (env.map (·.name))),
              Effect.joystickClose hd CloseSite.replace,
              Effect.joystickOpen (find_radiomaster_index g (env.map (·.name)))
                (some (j, id))]) := by
  have h1 : ¬ find_radiomaster_index g (env.map (·.name)) < 0 := by omega
  simp only [try_open, h1, if_false, hopen, Option.isSome_some, hidx, and_false,
    List.nil_append, List.cons_append, List.singleton_append]

theorem try_open_lifecycle (g : Str) (env : Env) (s : State) :
    ∀ e ∈ (try_open g env s).2.2, e.isLifecycle = true := by
  by_cases h : find_radiomaster_index g (env.map (·.name)) < 0
  · rw [try_open_not_found g env s h]
    simp [Effect.isLifecycle]
  · cases hj : s.joy with
    | none =>
      intro e he
      exact (try_open_from_closed_effects g env s hj e he).1
    | some hd =>
      by_cases hidx : s.opened_device_index = find_radiomaster_index g (env.map (·.name))
      · rw [try_open_keep g env s hd (by omega) hj hidx]
        simp [Effect.isLifecycle]
      · rw [try_open_replace g env s hd (by omega) hj hidx]
        split <;> simp [Effect.isLifecycle]

theorem isLifecycle_of_isReopen (e : Effect) (h : e.isReopen = true) : e.isLifecycle = true := by
  cases e with
  | discovery b i => rfl
  | keepSame i => rfl
  | joystickClose hd site => rfl
  | joystickOpen i r => simp [Effect.isReopen] at h
  | console j => simp [Effect.isReopen] at h
  | send fd p r => simp [Effect.isReopen] at h
  | closeSocket fd => simp [Effect.isReopen] at h

theorem handle_event_frame (g : Str) (ev : Event) (s : State) :
    (handle_event g ev s).1.g_sock = s.g_sock
      ∧ (handle_event g ev s).1.last_print = s.last_print
      ∧ (handle_event g ev s).1.attempt_count = s.attempt_count := by
  cases ev with
  | quit => exact ⟨rfl, rfl, rfl⟩
  | joyDeviceAdded which env =>
    simp only [handle_event]
    split_ifs
    · have h := try_open_frame g env s
      exact ⟨h.1, h.2.2.1, h.2.2.2⟩
    · exact ⟨rfl, rfl, rfl⟩
  | joyDeviceRemoved which =>
    simp only [handle_event]
    split
    · split_ifs <;> exact ⟨rfl, rfl, rfl⟩
    · exact ⟨rfl, rfl, rfl⟩
  | other => exact ⟨rfl, rfl, rfl⟩

/-- The handler of one event produces lifecycle effects only, none of them the
effect of a re-open. -/
theorem handle_event_effects (g : Str) (ev : Event) (s : State) :
    ∀ e ∈ (handle_event g ev s).2, e.isLifecycle = true ∧ e.isReopen = false := by
  cases ev with
  | quit => simp [handle_event]
  | joyDeviceAdded which env =>
    simp only [handle_event]
    split_ifs with hj
    · exact try_open_from_closed_effects g env s (Option.isNone_iff_eq_none.mp hj)
    · simp
  | joyDeviceRemoved which =>
    simp only [handle_event]
    split
    · split_ifs <;> simp [Effect.isLifecycle, Effect.isReopen]
    · simp
  | other => simp [handle_event]

/-- With a joystick open, the handler of one event closes it only for the
removal event that carries its instance id. -/
theorem handle_event_close (g : Str) (ev : Event) (s : State) (hd hc : Nat) (site : CloseSite)
    (hopen : s.joy = some hd)
    (hin : Effect.joystickClose hc site ∈ (handle_event g ev s).2) :
    ev = Event.joyDeviceRemoved s.opened_instance_id ∧ hc = hd ∧ site = CloseSite.removed := by
  cases ev with
  | quit => simp [handle_event] at hin
  | joyDeviceAdded which env => simp [handle_event, hopen] at hin
  | joyDeviceRemoved which =>
    simp only [handle_event, hopen] at hin
    split_ifs at hin with hw
    · simp only [List.mem_singleton, Effect.joystickClose.injEq] at hin
      exact ⟨by rw [hw], hin.1, hin.2⟩
    · simp at hin
  | other => simp [handle_event] at hin

/-- With a joystick open, every event but the removal of its own instance id
leaves the joystick variables alone and has no effect. -/
theorem handle_event_keeps_open (g : Str) (ev : Event) (s : State) (hd : Nat)
    (hopen : s.joy = some hd) (hev : ev ≠ Event.joyDeviceRemoved s.opened_instance_id) :
    (handle_event g ev s).1.joy = some hd
      ∧ (handle_event g ev s).1.opened_instance_id = s.opened_instance_id
      ∧ (handle_event g ev s).1.opened_device_index = s.opened_device_index
      ∧ (handle_event g ev s).2 = [] := by
  cases ev with
  | quit => exact ⟨hopen, rfl, rfl, rfl⟩
  | joyDeviceAdded which env => simp [handle_event, hopen]
  | joyDeviceRemoved which =>
    have hw : which ≠ s.opened_instance_id := fun hc => hev (by rw [hc])
    simp [handle_event, hopen, hw]
  | other => exact ⟨hopen, rfl, rfl, rfl⟩

theorem drain_events_frame (g : Str) (evs : List Event) (s : State) :
    (drain_events g evs s).1.g_sock = s.g_sock
      ∧ (drain_events g evs s).1.last_print = s.last_print
      ∧ (drain_events g evs s).1.attempt_count = s.attempt_count := by
  induction evs generalizing s with
  | nil => exact ⟨rfl, rfl, rfl⟩
  | cons ev rest ih =>
    have h1 := handle_event_frame g ev s
    have h2 := ih (handle_event g ev s).1
    simp only [drain_events]
    exact ⟨h2.1.trans h1.1, h2.2.1.trans h1.2.1, h2.2.2.trans h1.2.2⟩

theorem drain_events_effects (g : Str) (evs : List Event) (s : State) :
    ∀ e ∈ (drain_events g evs s).2, e.isLifecycle = true ∧ e.isReopen = false := by
  induction evs generalizing s with
  | nil => simp [drain_events]
  | cons ev rest ih =>
    intro e he
    simp only [drain_events, List.mem_append] at he
    rcases he with he | he
    · exact handle_event_effects g ev s e he
    · exact ih _ e he

theorem drain_events_keeps_open (g : Str) (evs : List Event) (s : State) (hd : Nat)
    (hopen : s.joy = some hd)
    (hev : Event.joyDeviceRemoved s.opened_instance_id ∉ evs) :
    (drain_events g evs s).1.joy = some hd
      ∧ (drain_events g evs s).1.opened_instance_id = s.opened_instance_id
      ∧ (drain_events g evs s).1.opened_device_index = s.opened_device_index
      ∧ (drain_events g evs s).2 = [] := by
  induction evs generalizing s with
  | nil => exact ⟨hopen, rfl, rfl, rfl⟩
  | cons ev rest ih =>
    simp only [List.mem_cons, not_or] at hev
    have h1 := handle_event_keeps_open g ev s hd hopen (fun hc => hev.1 hc.symm)
    have h2 := ih (handle_event g ev s).1 h1.1 (by rw [h1.2.1]; exact hev.2)
    simp only [drain_events]
    refine ⟨h2.1, h2.2.1.trans h1.2.1, h2.2.2.1.trans h1.2.2.1, ?_⟩
    rw [h1.2.2.2, h2.2.2.2]
    rfl

/-! ## Lemmas on the publish step and the loop -/

theorem try_open_terminated (g : Str) (env : Env) (s : State) :
    (try_open g env s).2.1.terminated = s.terminated := by
  unfold try_open
  simp only
  split_ifs
  · rfl
  · rfl
  · split <;> cases s.joy <;> rfl

theorem handle_event_terminated (g : Str) (ev : Event) (s : State) :
    (handle_event g ev s).1.terminated = s.terminated := by
  cases ev with
  | quit => rfl
  | joyDeviceAdded which env =>
    simp only [handle_event]
    split_ifs
    · exact try_open_terminated g env s
    · rfl
  | joyDeviceRemoved which =>
    simp only [handle_event]
    split
    · split_ifs <;> rfl
    · rfl
  | other => rfl

theorem drain_events_terminated (g : Str) (evs : List Event) (s : State) :
    (drain_events g evs s).1.terminated = s.terminated := by
  induction evs generalizing s with
  | nil => rfl
  | cons ev rest ih =>
    simp only [drain_events]
    exact (ih _).trans (handle_event_terminated g ev s)

/-- The publish step in its five outcomes. -/
theorem publish_cases (t : Tick) (s : State) :
    (¬ t.now - s.last_print ≥ 100 ∧ publish t s = (s, []))
      ∨ (t.now - s.last_print ≥ 100 ∧ s.g_sock < 0
          ∧ publish t s = ({ s with last_print := t.now },
              [Effect.console (render_json t.name s.opened_device_index t.guid_str t.timebuf
                (channels t.axis_values))]))
      ∨ (∃ r, t.now - s.last_print ≥ 100 ∧ 0 ≤ s.g_sock ∧ t.sent = SendOutcome.returned r
          ∧ 0 ≤ r
          ∧ publish t s = ({ s with last_print := t.now },
              [Effect.console (render_json t.name s.opened_device_index t.guid_str t.timebuf
                (channels t.axis_values)),
               Effect.send s.g_sock (net_json (render_json t.name s.opened_device_index
                t.guid_str t.timebuf (channels t.axis_values))) (SendOutcome.returned r)]))
      ∨ (∃ r, t.now - s.last_print ≥ 100 ∧ 0 ≤ s.g_sock ∧ t.sent = SendOutcome.returned r
          ∧ r < 0
          ∧ publish t s = ({ s with last_print := t.now, g_sock := -1 },
              [Effect.console (render_json t.name s.opened_device_index t.guid_str t.timebuf
                (channels t.axis_values)),
               Effect.send s.g_sock (net_json (render_json t.name s.opened_device_index
                t.guid_str t.timebuf (channels t.axis_values))) (SendOutcome.returned r),
               Effect.closeSocket s.g_sock]))
      ∨ (t.now - s.last_print ≥ 100 ∧ 0 ≤ s.g_sock ∧ t.sent = SendOutcome.sigpipe
          ∧ publish t s = ({ s with last_print := t.now, terminated := true },
              [Effect.console (render_json t.name s.opened_device_index t.guid_str t.timebuf
                (channels t.axis_values)),
               Effect.send s.g_sock (net_json (render_json t.name s.opened_device_index
                t.guid_str t.timebuf (channels t.axis_values))) SendOutcome.sigpipe])) := by
  by_cases hgate : t.now - s.last_print ≥ 100
  · by_cases hsock : s.g_sock ≥ 0
    · cases hout : t.sent with
      | sigpipe =>
        right; right; right; right
        refine ⟨hgate, hsock, rfl, ?_⟩
        simp [publish, hgate, hsock, hout]
      | returned r =>
        by_cases hsent : r < 0
        · right; right; right; left
          refine ⟨r, hgate, hsock, rfl, hsent, ?_⟩
          simp [publish, hgate, hsock, hout, hsent, close_stream]
        · right; right; left
          refine ⟨r, hgate, hsock, rfl, by omega, ?_⟩
          simp [publish, hgate, hsock, hout, hsent]
    · right; left
      refine ⟨hgate, by omega, ?_⟩
      simp [publish, hgate, hsock]
  · left
    exact ⟨hgate, by simp [publish, hgate]⟩

theorem publish_joy (t : Tick) (s : State) :
    (publish t s).1.joy = s.joy
      ∧ (publish t s).1.opened_instance_id = s.opened_instance_id
      ∧ (publish t s).1.opened_device_index = s.opened_device_index
      ∧ (publish t s).1.running = s.running := by
  rcases publish_cases t s with h | h | ⟨r, h⟩ | ⟨r, h⟩ | h
  · rw [h.2]; exact ⟨rfl, rfl, rfl, rfl⟩
  · rw [h.2.2]; exact ⟨rfl, rfl, rfl, rfl⟩
  · rw [h.2.2.2.2]; exact ⟨rfl, rfl, rfl, rfl⟩
  · rw [h.2.2.2.2]; exact ⟨rfl, rfl, rfl, rfl⟩
  · rw [h.2.2.2]; exact ⟨rfl, rfl, rfl, rfl⟩

theorem publish_not_lifecycle (t : Tick) (s : State) :
    ∀ e ∈ (publish t s).2, e.isLifecycle = false := by
  rcases publish_cases t s with h | h | ⟨r, h⟩ | ⟨r, h⟩ | h
  · rw [h.2]; simp
  · rw [h.2.2]; simp [Effect.isLifecycle]
  · rw [h.2.2.2.2]; simp [Effect.isLifecycle]
  · rw [h.2.2.2.2]; simp [Effect.isLifecycle]
  · rw [h.2.2.2]; simp [Effect.isLifecycle]

/-- A send of the publish step goes to the valid socket of the state. When it
returns an error the socket is closed and invalidated in the same step and the
process goes on; when it raises `SIGPIPE` the process is terminated with the
socket still open and valid. -/
theorem publish_send (t : Tick) (s : State) (fd : Int) (p : Str) (o : SendOutcome)
    (hin : Effect.send fd p o ∈ (publish t s).2) :
    0 ≤ s.g_sock ∧ fd = s.g_sock ∧ o = t.sent
      ∧ (∀ r, o = SendOutcome.returned r → r < 0 →
          (publish t s).1.g_sock = -1 ∧ Effect.closeSocket fd ∈ (publish t s).2
            ∧ (publish t s).1.terminated = s.terminated)
      ∧ (o = SendOutcome.sigpipe →
          (publish t s).1.g_sock = s.g_sock ∧ (publish t s).1.terminated = true
            ∧ ∀ fd2, Effect.closeSocket fd2 ∉ (publish t s).2) := by
  rcases publish_cases t s with h | h | ⟨r, h⟩ | ⟨r, h⟩ | h
  · rw [h.2] at hin; simp at hin
  · rw [h.2.2] at hin; simp at hin
  · rw [h.2.2.2.2] at hin
    simp only [List.mem_cons, List.mem_singleton, Effect.send.injEq, List.not_mem_nil,
      or_false, false_or, reduceCtorEq] at hin
    refine ⟨h.2.1, hin.1, by rw [hin.2.2, h.2.2.1], ?_, ?_⟩
    · intro r2 ho hr
      rw [hin.2.2] at ho
      have hrr : r = r2 := SendOutcome.returned.inj ho
      have := h.2.2.2.1
      omega
    · intro ho
      rw [hin.2.2] at ho
      exact absurd ho (by simp)
  · rw [h.2.2.2.2] at hin ⊢
    simp only [List.mem_cons, List.mem_singleton, Effect.send.injEq, List.not_mem_nil,
      or_false, false_or, reduceCtorEq] at hin
    refine ⟨h.2.1, hin.1, by rw [hin.2.2, h.2.2.1], ?_, ?_⟩
    · intro _ _ _
      refine ⟨rfl, ?_, rfl⟩
      rw [hin.1]
      simp
    · intro ho
      rw [hin.2.2] at ho
      exact absurd ho (by simp)
  · rw [h.2.2.2] at hin ⊢
    simp only [List.mem_cons, List.mem_singleton, Effect.send.injEq, List.not_mem_nil,
      or_false, false_or, reduceCtorEq] at hin
    refine ⟨h.2.1, hin.1, by rw [hin.2.2, h.2.2.1], ?_, ?_⟩
    · intro r2 ho _
      rw [hin.2.2] at ho
      exact absurd ho (by simp)
    · intro _
      refine ⟨rfl, rfl, ?_⟩
      intro fd2 hc
      simp at hc

/-- With an invalid socket the publish step keeps it invalid, sends nothing and
leaves the process running. -/
theorem publish_invalid (t : Tick) (s : State) (hs : s.g_sock < 0) :
    (publish t s).1.g_sock = s.g_sock
      ∧ (publish t s).1.terminated = s.terminated
      ∧ ∀ fd p o, Effect.send fd p o ∉ (publish t s).2 := by
  refine ⟨?_, ?_, ?_⟩
  · rcases publish_cases t s with h | h | ⟨r, h⟩ | ⟨r, h⟩ | h
    · rw [h.2]
    · rw [h.2.2]
    · have := h.2.1; omega
    · have := h.2.1; omega
    · have := h.2.1; omega
  · rcases publish_cases t s with h | h | ⟨r, h⟩ | ⟨r, h⟩ | h
    · rw [h.2]
    · rw [h.2.2]
    · have := h.2.1; omega
    · have := h.2.1; omega
    · have := h.2.1; omega
  · intro fd p o hin
    have := (publish_send t s fd p o hin).1
    omega

/-- Once the gate of 100 ms has elapsed the frame is built and written to the
console, whatever the state of the socket. -/
theorem publish_console (t : Tick) (s : State) (hgate : t.now - s.last_print ≥ 100) :
    Effect.console (render_json t.name s.opened_device_index t.guid_str t.timebuf
        (channels t.axis_values)) ∈ (publish t s).2
      ∧ (publish t s).1.last_print = t.now := by
  rcases publish_cases t s with h | h | ⟨r, h⟩ | ⟨r, h⟩ | h
  · exact absurd hgate h.1
  · rw [h.2.2]; simp
  · rw [h.2.2.2.2]; simp
  · rw [h.2.2.2.2]; simp
  · rw [h.2.2.2]; simp

/-- One iteration with no joystick open after the events: the idle branch. -/
theorem loop_iteration_idle (g : Str) (t : Tick) (s : State)
    (hj : (drain_events g t.events s).1.joy = none) :
    loop_iteration g t s
      = if ((drain_events g t.events s).1.attempt_count + 1) % 10 = 0 then
          ((try_open g t.env { (drain_events g t.events s).1 with
              attempt_count := (drain_events g t.events s).1.attempt_count + 1 }).2.1,
            (drain_events g t.events s).2
              ++ (try_open g t.env { (drain_events g t.events s).1 with
                  attempt_count := (drain_events g t.events s).1.attempt_count + 1 }).2.2)
        else
          ({ (drain_events g t.events s).1 with
              attempt_count := (drain_events g t.events s).1.attempt_count + 1 },
            (drain_events g t.events s).2) := by
  simp only [loop_iteration, hj]

/-- One iteration with a joystick open after the events: the publish branch. -/
theorem loop_iteration_open (g : Str) (t : Tick) (s : State) (hd : Nat)
    (hj : (drain_events g t.events s).1.joy = some hd) :
    loop_iteration g t s
      = ((publish t (drain_events g t.events s).1).1,
          (drain_events g t.events s).2 ++ (publish t (drain_events g t.events s).1).2) := by
  simp only [loop_iteration, hj]

/-- No iteration produces the effect of a re-open. -/
theorem loop_iteration_not_reopen (g : Str) (t : Tick) (s : State) :
    ∀ e ∈ (loop_iteration g t s).2, e.isReopen = false := by
  intro e he
  cases hj : (drain_events g t.events s).1.joy with
  | none =>
    rw [loop_iteration_idle g t s hj] at he
    split_ifs at he
    · simp only [List.mem_append] at he
      rcases he with he | he
      · exact (drain_events_effects g t.events s e he).2
      · exact (try_open_from_closed_effects g t.env _ (by exact hj) e he).2
    · exact (drain_events_effects g t.events s e he).2
  | some hd =>
    rw [loop_iteration_open g t s hd hj] at he
    simp only [List.mem_append] at he
    rcases he with he | he
    · exact (drain_events_effects g t.events s e he).2
    · have h1 := publish_not_lifecycle t _ e he
      cases hr : e.isReopen with
      | false => rfl
      | true => rw [isLifecycle_of_isReopen e hr] at h1; exact absurd h1 (by decide)

/-- A send of one iteration is the send of its publish step. -/
theorem loop_iteration_send (g : Str) (t : Tick) (s : State) (fd : Int) (p : Str)
    (o : SendOutcome) (hin : Effect.send fd p o ∈ (loop_iteration g t s).2) :
    0 ≤ s.g_sock ∧ fd = s.g_sock ∧ o = t.sent
      ∧ (∀ r, o = SendOutcome.returned r → r < 0 →
          (loop_iteration g t s).1.g_sock = -1
            ∧ Effect.closeSocket fd ∈ (loop_iteration g t s).2
            ∧ (loop_iteration g t s).1.terminated = s.terminated)
      ∧ (o = SendOutcome.sigpipe →
          (loop_iteration g t s).1.g_sock = s.g_sock
            ∧ (loop_iteration g t s).1.terminated = true
            ∧ ∀ fd2, Effect.closeSocket fd2 ∉ (loop_iteration g t s).2) := by
  have hfr := drain_events_frame g t.events s
  have hte := drain_events_terminated g t.events s
  have hlife : ∀ e ∈ (drain_events g t.events s).2, e.isLifecycle = true :=
    fun e he => (drain_events_effects g t.events s e he).1
  have hdrain : Effect.send fd p o ∉ (drain_events g t.events s).2 := by
    intro hc
    have := hlife _ hc
    simp [Effect.isLifecycle] at this
  cases hj : (drain_events g t.events s).1.joy with
  | none =>
    rw [loop_iteration_idle g t s hj] at hin
    split_ifs at hin
    · simp only [List.mem_append] at hin
      rcases hin with hin | hin
      · exact absurd hin hdrain
      · have := try_open_lifecycle g t.env _ _ hin
        simp [Effect.isLifecycle] at this
    · exact absurd hin hdrain
  | some hd =>
    rw [loop_iteration_open g t s hd hj] at hin ⊢
    simp only [List.mem_append] at hin
    rcases hin with hin | hin
    · exact absurd hin hdrain
    · have h := publish_send t _ fd p o hin
      rw [hfr.1, hte] at h
      refine ⟨h.1, h.2.1, h.2.2.1, ?_, ?_⟩
      · intro r ho hr
        have h3 := h.2.2.2.1 r ho hr
        exact ⟨h3.1, List.mem_append_right _ h3.2.1, h3.2.2⟩
      · intro ho
        have h3 := h.2.2.2.2 ho
        refine ⟨h3.1, h3.2.1, ?_⟩
        intro fd2 hc
        simp only [List.mem_append] at hc
        rcases hc with hc | hc
        · have := hlife _ hc
          simp [Effect.isLifecycle] at this
        · exact h3.2.2 fd2 hc

/-- With an invalid socket one iteration keeps it invalid, sends nothing and
leaves the process running. -/
theorem loop_iteration_invalid (g : Str) (t : Tick) (s : State) (hs : s.g_sock < 0) :
    (loop_iteration g t s).1.g_sock = s.g_sock
      ∧ (loop_iteration g t s).1.terminated = s.terminated
      ∧ ∀ fd p o, Effect.send fd p o ∉ (loop_iteration g t s).2 := by
  have hfr := drain_events_frame g t.events s
  have hte := drain_events_terminated g t.events s
  refine ⟨?_, ?_, ?_⟩
  · cases hj : (drain_events g t.events s).1.joy with
    | none =>
      rw [loop_iteration_idle g t s hj]
      split_ifs
      · exact (try_open_frame g t.env _).1.trans hfr.1
      · exact hfr.1
    | some hd =>
      rw [loop_iteration_open g t s hd hj]
      exact (publish_invalid t _ (by rw [hfr.1]; exact hs)).1.trans hfr.1
  · cases hj : (drain_events g t.events s).1.joy with
    | none =>
      rw [loop_iteration_idle g t s hj]
      split_ifs
      · exact (try_open_terminated g t.env _).trans hte
      · exact hte
    | some hd =>
      rw [loop_iteration_open g t s hd hj]
      exact (publish_invalid t _ (by rw [hfr.1]; exact hs)).2.1.trans hte
  · intro fd p o hin
    have := (loop_iteration_send g t s fd p o hin).1
    omega

theorem main_loop_invalid (g : Str) (ts : List Tick) (s : State) (hs : s.g_sock < 0) :
    (main_loop g ts s).1.g_sock = s.g_sock
      ∧ (main_loop g ts s).1.terminated = s.terminated
      ∧ ∀ fd p o, Effect.send fd p o ∉ (main_loop g ts s).2 := by
  induction ts generalizing s with
  | nil => simp [main_loop]
  | cons t rest ih =>
    simp only [main_loop]
    split_ifs
    · simp
    · have h1 := loop_iteration_invalid g t s hs
      have h2 := ih (loop_iteration g t s).1 (by rw [h1.1]; exact hs)
      refine ⟨h2.1.trans h1.1, h2.2.1.trans h1.2.1, ?_⟩
      intro fd p o hin
      simp only [List.mem_append] at hin
      rcases hin with hin | hin
      · exact h1.2.2 fd p o hin
      · exact h2.2.2 fd p o hin
    · simp

/-- Nothing runs once the process is terminated. -/
theorem main_loop_terminated (g : Str) (ts : List Tick) (s : State)
    (hs : s.terminated = true) : main_loop g ts s = (s, []) := by
  cases ts with
  | nil => rfl
  | cons t rest => simp only [main_loop, hs, if_true]

theorem main_loop_not_reopen (g : Str) (ts : List Tick) (s : State) :
    ∀ e ∈ (main_loop g ts s).2, e.isReopen = false := by
  induction ts generalizing s with
  | nil => simp [main_loop]
  | cons t rest ih =>
    intro e he
    simp only [main_loop] at he
    split_ifs at he
    · simp at he
    · simp only [List.mem_append] at he
      rcases he with he | he
      · exact loop_iteration_not_reopen g t s e he
      · exact ih _ e he
    · simp at he

theorem shutdown_not_reopen (s : State) : ∀ e ∈ (shutdown s).2, e.isReopen = false := by
  intro e he
  simp only [shutdown, close_stream, List.mem_append] at he
  rcases he with he | he
  · cases hj : s.joy with
    | none => simp [hj] at he
    | some hd =>
      simp only [hj, List.mem_singleton] at he
      subst he
      rfl
  · split_ifs at he
    · simp only [List.mem_singleton] at he
      subst he
      rfl
    · simp at he

theorem main_not_reopen (name_arg : Option Str) (sockfd conn_res t0 : Int) (env0 : Env)
    (ticks : List Tick) :
    ∀ e ∈ (main name_arg sockfd conn_res t0 env0 ticks).2, e.isReopen = false := by
  intro e he
  have h0 := try_open_from_closed_effects (target_of_args name_arg) env0
    (initial_state sockfd conn_res t0) rfl
  simp only [main] at he
  split_ifs at he
  · simp only [List.mem_append] at he
    rcases he with he | he
    · exact (h0 e he).2
    · exact main_loop_not_reopen _ _ _ e he
  · simp only [List.mem_append] at he
    rcases he with he | he
    · exact (h0 e he).2
    · exact main_loop_not_reopen _ _ _ e he
  · simp only [List.mem_append] at he
    rcases he with (he | he) | he
    · exact (h0 e he).2
    · exact main_loop_not_reopen _ _ _ e he
    · exact shutdown_not_reopen _ e he

/-! ## Lemmas on the framing -/

theorem strip_newlines_foldl (acc json : Str) :
    json.foldl (fun acc c => if c = '\n' ∨ c = '\r' then acc else acc ++ [c]) acc
      = acc ++ json.filter (fun c => decide (c ≠ '\n' ∧ c ≠ '\r')) := by
  induction json generalizing acc with
  | nil => simp
  | cons c rest ih =>
    rw [List.foldl_cons, ih]
    by_cases hc : c = '\n' ∨ c = '\r'
    · have hd : decide (c ≠ '\n' ∧ c ≠ '\r') = false := by
        rw [decide_eq_false_iff_not]
        tauto
      simp only [if_pos hc, List.filter_cons, hd, Bool.false_eq_true, if_false]
    · have hd : decide (c ≠ '\n' ∧ c ≠ '\r') = true := by
        rw [decide_eq_true_iff]
        tauto
      simp only [if_neg hc, List.filter_cons, hd, if_true, List.append_assoc,
        List.singleton_append]

theorem strip_newlines_eq_filter (json : Str) :
    strip_newlines json = json.filter (fun c => decide (c ≠ '\n' ∧ c ≠ '\r')) := by
  rw [strip_newlines, strip_newlines_foldl, List.nil_append]

theorem strip_newlines_clean (json : Str) :
    ∀ c ∈ strip_newlines json, c ≠ '\n' ∧ c ≠ '\r' := by
  intro c hc
  rw [strip_newlines_eq_filter, List.mem_filter] at hc
  exact of_decide_eq_true hc.2

/-- Lines each ended by the separator are the lines and one empty line, joined
by the separator. -/
theorem flatten_terminated_eq_intercalate (sep : Char) (ls : List Str) :
    (ls.map (· ++ [sep])).flatten = [sep].intercalate (ls ++ [[]]) := by
  induction ls with
  | nil => rfl
  | cons a rest ih =>
    rw [List.map_cons, List.flatten_cons, ih]
    cases rest with
    | nil => simp [List.intercalate]
    | cons b r => simp [List.intercalate]

theorem splitOn_terminated (ls : List Str) (h : ∀ l ∈ ls, '\n' ∉ l) :
    List.splitOn '\n' (ls.map (· ++ ['\n'])).flatten = ls ++ [[]] := by
  rw [flatten_terminated_eq_intercalate]
  apply List.splitOn_intercalate
  · intro l hl
    simp only [List.mem_append, List.mem_singleton] at hl
    rcases hl with hl | hl
    · exact h l hl
    · rw [hl]; simp
  · simp

/-! ## The claim on the framing -/

/-- C8: the network payload of a frame text is the text without its `\n` and `\r`
characters, the others kept in order, followed by one `\n`: it is not empty,
ends in `\n` and holds no other `\n` and no `\r`; so splitting the stream of
the payloads of any frames on `\n` gives back one message for each frame (and
the empty rest after the last delimiter). -/
theorem C8_net_json_framing (json : Str) (frames : List Str) :
    net_json json = json.filter (fun c => decide (c ≠ '\n' ∧ c ≠ '\r')) ++ ['\n']
      ∧ net_json json ≠ []
      ∧ (net_json json).getLast? = some '\n'
      ∧ (∀ c ∈ (net_json json).dropLast, c ≠ '\n' ∧ c ≠ '\r')
      ∧ List.splitOn '\n' (frames.map net_json).flatten
          = frames.map (fun j => j.filter (fun c => decide (c ≠ '\n' ∧ c ≠ '\r'))) ++ [[]] := by
  refine ⟨?_, ?_, ?_, ?_, ?_⟩
  · rw [net_json, strip_newlines_eq_filter]
  · simp [net_json]
  · simp [net_json]
  · rw [net_json, List.dropLast_concat]
    exact strip_newlines_clean json
  · have hmap : frames.map net_json = (frames.map strip_newlines).map (· ++ ['\n']) := by
      rw [List.map_map]
      rfl
    have hstrip : frames.map strip_newlines
        = frames.map (fun j => j.filter (fun c => decide (c ≠ '\n' ∧ c ≠ '\r'))) :=
      List.map_congr_left (fun j _ => strip_newlines_eq_filter j)
    rw [hmap, splitOn_terminated, hstrip]
    intro l hl
    rw [List.mem_map] at hl
    obtain ⟨j, -, rfl⟩ := hl
    exact fun hc => (strip_newlines_clean j _ hc).1 rfl

/-! ## The claims on the device lifecycle -/

/-- C5: with a device open under instance id `Y`, a device-removed event carrying
an id `X ≠ Y` changes nothing and closes nothing: handle, recorded instance id
and device index stay as they were. The handler changes something only when
the event carries `Y` itself, and then it closes the handle and clears the
descriptor. -/
theorem C5_removal_isolation (g_target_name : Str) (s : State) (hd : Nat) (X : Int)
    (hopen : s.joy = some hd) (hne : X ≠ s.opened_instance_id) :
    handle_event g_target_name (Event.joyDeviceRemoved X) s = (s, [])
      ∧ (∀ X2 : Int, handle_event g_target_name (Event.joyDeviceRemoved X2) s ≠ (s, [])
          → X2 = s.opened_instance_id)
      ∧ handle_event g_target_name (Event.joyDeviceRemoved s.opened_instance_id) s
          = ({ s with joy := none, opened_instance_id := -1, opened_device_index := -1 },
              [Effect.joystickClose hd CloseSite.removed]) := by
  refine ⟨?_, ?_, ?_⟩
  · simp only [handle_event, hopen, hne, if_false]
  · intro X2 hX2
    by_contra hc
    apply hX2
    simp only [handle_event, hopen, hc, if_false]
  · simp only [handle_event, hopen, if_true]

/-- Witness of C5: the joystick with instance id 80 is open and the device with
instance id 3 is removed. -/
theorem C5_removal_isolation_witness :
    handle_event default_target_name (Event.joyDeviceRemoved 3) state_open = (state_open, []) :=
  (C5_removal_isolation default_target_name state_open 8 3 rfl (by decide)).1

/-- C6: with a device open at index `i`, a `try_open` whose matcher answers the
same index `i` returns success, leaves the state (handle, instance id, device
index and all the rest) as it was, and calls neither `SDL_JoystickClose` nor
`SDL_JoystickOpen`. -/
theorem C6_idempotent_reopen (g_target_name : Str) (env : Env) (s : State) (hd : Nat) (i : Int)
    (hopen : s.joy = some hd) (hidx : s.opened_device_index = i)
    (hfind : find_radiomaster_index g_target_name (env.map (·.name)) = i) (hi : 0 ≤ i) :
    (try_open g_target_name env s).1 = true
      ∧ (try_open g_target_name env s).2.1 = s
      ∧ (try_open g_target_name env s).2.2 = [Effect.discovery true i, Effect.keepSame i]
      ∧ (∀ h2 site, Effect.joystickClose h2 site ∉ (try_open g_target_name env s).2.2)
      ∧ (∀ idx res, Effect.joystickOpen idx res ∉ (try_open g_target_name env s).2.2) := by
  rw [try_open_keep g_target_name env s hd (by rw [hfind]; exact hi) hopen (by rw [hfind, hidx]),
    hfind]
  refine ⟨rfl, rfl, rfl, ?_, ?_⟩
  · intro h2 site hin
    simp at hin
  · intro idx res hin
    simp at hin

/-- Witness of C6: the transmitter is open at index 1 and discovery finds it at
index 1 again. -/
theorem C6_idempotent_reopen_witness :
    (try_open default_target_name env_example state_open).1 = true
      ∧ (try_open default_target_name env_example state_open).2.1 = state_open
      ∧ (try_open default_target_name env_example state_open).2.2
          = [Effect.discovery true 1, Effect.keepSame 1] :=
  have h := C6_idempotent_reopen default_target_name env_example state_open 8 1 rfl rfl
    (by decide) (by decide)
  ⟨h.1, h.2.1, h.2.2.1⟩

/-- C10: in a run of `main`, whatever the devices, the events and the clock, no
`try_open` is entered with a joystick open, so neither its early return that
keeps the same index nor its close of the previous joystick is ever executed
and every `SDL_JoystickClose` is the one of the removal handler or the one
after the loop; the handler of an event closes an open joystick only for the
removal event carrying the joystick's own instance id; and an iteration whose
events hold no such removal leaves the joystick open and closes nothing. -/
theorem C10_discovery_only_when_closed (name_arg : Option Str) (sockfd conn_res t0 : Int)
    (env0 : Env) (ticks : List Tick) (g_target_name : Str) (s : State) (t : Tick) (hd : Nat)
    (hopen : s.joy = some hd) :
    (∀ e ∈ (main name_arg sockfd conn_res t0 env0 ticks).2,
        (∀ idx, e ≠ Effect.discovery true idx) ∧ (∀ idx, e ≠ Effect.keepSame idx)
          ∧ (∀ h2, e ≠ Effect.joystickClose h2 CloseSite.replace)
          ∧ (∀ h2 site, e = Effect.joystickClose h2 site
              → site = CloseSite.removed ∨ site = CloseSite.shutdown))
      ∧ (∀ ev hc site, Effect.joystickClose hc site ∈ (handle_event g_target_name ev s).2
          → ev = Event.joyDeviceRemoved s.opened_instance_id ∧ hc = hd
              ∧ site = CloseSite.removed)
      ∧ (Event.joyDeviceRemoved s.opened_instance_id ∉ t.events
          → (loop_iteration g_target_name t s).1.joy = some hd
              ∧ (loop_iteration g_target_name t s).1.opened_instance_id = s.opened_instance_id
              ∧ (loop_iteration g_target_name t s).1.opened_device_index
                  = s.opened_device_index
              ∧ ∀ e ∈ (loop_iteration g_target_name t s).2, e.isLifecycle = false) := by
  refine ⟨?_, ?_, ?_⟩
  · intro e he
    have h := main_not_reopen name_arg sockfd conn_res t0 env0 ticks e he
    refine ⟨?_, ?_, ?_, ?_⟩
    · intro idx hc
      rw [hc] at h
      simp [Effect.isReopen] at h
    · intro idx hc
      rw [hc] at h
      simp [Effect.isReopen] at h
    · intro h2 hc
      rw [hc] at h
      simp [Effect.isReopen] at h
    · intro h2 site hc
      rw [hc] at h
      cases site with
      | replace => simp [Effect.isReopen] at h
      | removed => exact Or.inl rfl
      | shutdown => exact Or.inr rfl
  · intro ev hc site hin
    exact handle_event_close g_target_name ev s hd hc site hopen hin
  · intro hev
    have hk := drain_events_keeps_open g_target_name t.events s hd hopen hev
    have hp := publish_joy t (drain_events g_target_name t.events s).1
    rw [loop_iteration_open g_target_name t s hd hk.1]
    refine ⟨hp.1.trans hk.1, hp.2.1.trans hk.2.1, hp.2.2.1.trans hk.2.2.1, ?_⟩
    intro e he
    rw [hk.2.2.2, List.nil_append] at he
    exact publish_not_lifecycle t _ e he

/-- Witness of C10: with the joystick of instance id 80 open, an iteration that
sees the removal of instance id 3 and a device-added event keeps handle 8. -/
theorem C10_discovery_only_when_closed_witness :
    (loop_iteration default_target_name
        (tick_example [Event.joyDeviceRemoved 3, Event.joyDeviceAdded 0 env_example] 1000 10)
        state_open).1.joy = some 8 :=
  ((C10_discovery_only_when_closed none 5 0 1000 env_example [] default_target_name state_open
      (tick_example [Event.joyDeviceRemoved 3, Event.joyDeviceAdded 0 env_example] 1000 10)
      8 rfl).2.2 (by decide)).1

/-! ## The claim on the send path -/

/-- What the send path does when `send` returns. In one iteration a send is
attempted only with a valid socket, the one of the state; when that send
returns an error the socket is closed, `g_sock` is `-1` at the end of the same
iteration and the process goes on; from a state with an invalid socket every
further run of the loop keeps it invalid, attempts no send and is not
terminated by one; and on every iteration where a joystick is open after the
events and 100 ms have elapsed the frame is built and written to the
console. -/
theorem send_error_return_handled (g_target_name : Str) (t : Tick) (ts : List Tick)
    (s : State) :
    (∀ fd p o, Effect.send fd p o ∈ (loop_iteration g_target_name t s).2
        → 0 ≤ s.g_sock ∧ fd = s.g_sock ∧ o = t.sent)
      ∧ (∀ fd p r, Effect.send fd p (SendOutcome.returned r)
            ∈ (loop_iteration g_target_name t s).2 → r < 0
          → (loop_iteration g_target_name t s).1.g_sock = -1
              ∧ Effect.closeSocket fd ∈ (loop_iteration g_target_name t s).2
              ∧ (loop_iteration g_target_name t s).1.terminated = s.terminated)
      ∧ (s.g_sock < 0
          → (main_loop g_target_name ts s).1.g_sock = s.g_sock
              ∧ (main_loop g_target_name ts s).1.terminated = s.terminated
              ∧ ∀ fd p o, Effect.send fd p o ∉ (main_loop g_target_name ts s).2)
      ∧ (∀ hd, (drain_events g_target_name t.events s).1.joy = some hd
          → t.now - s.last_print ≥ 100
          → Effect.console (render_json t.name
                (drain_events g_target_name t.events s).1.opened_device_index
                t.guid_str t.timebuf (channels t.axis_values))
              ∈ (loop_iteration g_target_name t s).2) := by
  refine ⟨?_, ?_, ?_, ?_⟩
  · intro fd p o hin
    have h := loop_iteration_send g_target_name t s fd p o hin
    exact ⟨h.1, h.2.1, h.2.2.1⟩
  · intro fd p r hin hr
    exact (loop_iteration_send g_target_name t s fd p _ hin).2.2.2.1 r rfl hr
  · intro hs
    exact main_loop_invalid g_target_name ts s hs
  · intro hd hj hgate
    rw [loop_iteration_open g_target_name t s hd hj]
    have hfr := drain_events_frame g_target_name t.events s
    exact List.mem_append_right _
      (publish_console t _ (by rw [hfr.2.1]; exact hgate)).1

/-- What the send path does when `send` raises `SIGPIPE`: the iteration ends with
the process terminated, the socket still open and `g_sock` still valid, no
`close_stream` has run, and whatever iterations were to follow produce
nothing. -/
theorem send_sigpipe_terminates (g_target_name : Str) (t : Tick) (ts : List Tick) (s : State)
    (fd : Int) (p : Str)
    (hin : Effect.send fd p SendOutcome.sigpipe ∈ (loop_iteration g_target_name t s).2) :
    0 ≤ (loop_iteration g_target_name t s).1.g_sock
      ∧ (loop_iteration g_target_name t s).1.g_sock = s.g_sock
      ∧ (loop_iteration g_target_name t s).1.terminated = true
      ∧ (∀ fd2, Effect.closeSocket fd2 ∉ (loop_iteration g_target_name t s).2)
      ∧ main_loop g_target_name ts (loop_iteration g_target_name t s).1
          = ((loop_iteration g_target_name t s).1, []) := by
  have h := loop_iteration_send g_target_name t s fd p _ hin
  have h3 := h.2.2.2.2 rfl
  refine ⟨by rw [h3.1]; exact h.1, h3.1, h3.2.1, h3.2.2, ?_⟩
  exact main_loop_terminated g_target_name ts _ h3.2.1

/-- C7, on the failing input: the transmitter is open, the socket is connected
(descriptor 5) and three publish ticks follow at 1000, 1100 and 1200 ms. When
the send of the first tick raises `SIGPIPE` because the peer has closed the
connection, the run ends there: the process is terminated, `g_sock` is still 5
and was never closed, and one frame only was built, where the claim has the
handle closed and invalidated in that iteration and the frames of the later
ticks built. When the same send returns the error `-1` instead, the run does
what the claim says: the socket is closed, `g_sock` is `-1`, the loop goes
on, three frames are built and one send only is attempted. -/
theorem C7_sigpipe_divergence :
    (main none 5 0 1000 env_example
        [tick_sigpipe 1000, tick_example [] 1100 10, tick_example [] 1200 10]).1.terminated
        = true
      ∧ (main none 5 0 1000 env_example
          [tick_sigpipe 1000, tick_example [] 1100 10, tick_example [] 1200 10]).1.g_sock = 5
      ∧ (main none 5 0 1000 env_example
          [tick_sigpipe 1000, tick_example [] 1100 10, tick_example [] 1200 10]).2.filter
            Effect.isCloseSocket = []
      ∧ ((main none 5 0 1000 env_example
          [tick_sigpipe 1000, tick_example [] 1100 10, tick_example [] 1200 10]).2.filter
            Effect.isSend).length = 1
      ∧ ((main none 5 0 1000 env_example
          [tick_sigpipe 1000, tick_example [] 1100 10, tick_example [] 1200 10]).2.filter
            Effect.isConsole).length = 1
      ∧ (main none 5 0 1000 env_example
          [tick_example [] 1000 (-1), tick_example [] 1100 10,
            tick_example [] 1200 10]).1.terminated = false
      ∧ (main none 5 0 1000 env_example
          [tick_example [] 1000 (-1), tick_example [] 1100 10,
            tick_example [] 1200 10]).1.running = true
      ∧ (main none 5 0 1000 env_example
          [tick_example [] 1000 (-1), tick_example [] 1100 10,
            tick_example [] 1200 10]).1.g_sock = -1
      ∧ (main none 5 0 1000 env_example
          [tick_example [] 1000 (-1), tick_example [] 1100 10,
            tick_example [] 1200 10]).2.filter Effect.isCloseSocket = [Effect.closeSocket 5]
      ∧ ((main none 5 0 1000 env_example
          [tick_example [] 1000 (-1), tick_example [] 1100 10,
            tick_example [] 1200 10]).2.filter Effect.isSend).length = 1
      ∧ ((main none 5 0 1000 env_example
          [tick_example [] 1000 (-1), tick_example [] 1100 10,
            tick_example [] 1200 10]).2.filter Effect.isConsole).length = 3 := by
  refine ⟨by decide, by decide, by decide, by decide, by decide, by decide, by decide,
    by decide, by decide, by decide, by decide⟩

end Dronebot
